import Mathlib

/-!
Shallow embedding of `codebase/fetch_audio.py` (auto_generator repository).

I/O is modelled by passing the remote data explicitly:
the reciter catalog (`List ApiEdition`, the parsed body of the edition
listing), the surah references (`List SurahRef`, the parsed body of the
meta listing), the per-verse text lookup (`fetchAya : Int → Option String`,
`some` when the HTTP status is 200 and the body parses), the per-link
download outcome (`downloadOk : String → Bool`) and, for the caption
writer, the previous contents of the destination file
(`Option (List CaptionLine)`, `none` when the file does not exist).
Python exceptions and `exit()` are modelled with explicit error values.
-/

namespace FetchAudio

/-- The whitespace test used by Python `str.strip()` (ASCII fragment;
the texts handled by the claims contain no exotic Unicode whitespace). -/
def pyIsSpace (c : Char) : Bool :=
  c = ' ' || c = '\n' || c = '\t' || c = '\r' || c = '\x0b' || c = '\x0c'

/-- Python `str.strip()` on a list of characters: drop whitespace from
both ends. -/
def pyStrip (s : List Char) : List Char :=
  ((s.dropWhile pyIsSpace).reverse.dropWhile pyIsSpace).reverse

/-- Python `str.strip()` on strings. -/
def pyStripStr (s : String) : String :=
  ⟨pyStrip s.data⟩

/-- One pass of Python `text.replace(old, "")` (deletion of every
non-overlapping occurrence of `p`, scanning left to right), with explicit
fuel so that the recursion is structural.  Each step either emits one
character or deletes one occurrence of `p` (which consumes at least one
character when `p ≠ []`), so fuel `s.length` is always enough. -/
def pyReplaceAux (p : List Char) : Nat → List Char → List Char
  | _, [] => []
  | 0, s => s
  | fuel + 1, c :: s =>
    if p.isPrefixOf (c :: s) then pyReplaceAux p fuel ((c :: s).drop p.length)
    else c :: pyReplaceAux p fuel s

/-- Python `s.replace(p, "")` on lists of characters.  For `p = []`
Python returns `s` unchanged (it interleaves empty strings), which the
guard reproduces. -/
def pyReplaceL (p s : List Char) : List Char :=
  if p = [] then s else pyReplaceAux p s.length s

/-- Python `s.replace(p, "")` on strings. -/
def pyReplaceStr (s p : String) : String :=
  ⟨pyReplaceL p.data s.data⟩

/-- The number of non-overlapping occurrences of `p` found by the same
left-to-right scan that `pyReplaceAux` performs (same fuel discipline). -/
def countOccAux (p : List Char) : Nat → List Char → Nat
  | _, [] => 0
  | 0, _ => 0
  | fuel + 1, c :: s =>
    if p.isPrefixOf (c :: s) then countOccAux p fuel ((c :: s).drop p.length) + 1
    else countOccAux p fuel s

/-- Occurrence count matching `pyReplaceL`. -/
def countOccL (p s : List Char) : Nat :=
  if p = [] then 0 else countOccAux p s.length s

/-- One entry of the parsed edition listing, the fields `get_reciters`
reads: `language`, `name`, `identifier`. -/
structure ApiEdition where
  language : String
  name : String
  identifier : String
deriving DecidableEq, Repr

/-- A reciter record as built by `get_reciters`. -/
structure Reciter where
  id : Nat
  name : String
  code : String
deriving DecidableEq, Repr

/-- One entry of the parsed meta listing, the fields `get_surahs` reads:
`name` and `numberOfAyahs`. -/
structure SurahRef where
  name : String
  numberOfAyahs : Nat
deriving DecidableEq, Repr

/-- A surah record as built by `get_surahs`. -/
structure Surah where
  id : Nat
  name : String
  aya_base : Nat
  n_aya : Nat
deriving DecidableEq, Repr

/-- A recitation record as built by `get_recitations`. -/
structure Recitation where
  text : String
  audio_link : String
deriving DecidableEq, Repr

/-- Python-level failure outcomes of the library functions:
`indexError` models an uncaught `IndexError` from `[...][0]` on an empty
list, `fetchError msg` models `raise FetchError(msg)`, and
`exceptionErr msg` models `raise Exception(msg)`. -/
inductive PyError where
  | indexError : PyError
  | fetchError : String → PyError
  | exceptionErr : String → PyError
deriving DecidableEq, Repr

/-- Loop body of `get_reciters`: keep the Arabic-language editions,
numbering them consecutively starting from the given counter. -/
def get_recitersAux : Nat → List ApiEdition → List Reciter
  | _, [] => []
  | id, e :: rest =>
    if e.language = "ar" then
      { id := id, name := e.name, code := e.identifier } :: get_recitersAux (id + 1) rest
    else
      get_recitersAux id rest

/-- `get_reciters()` with the parsed edition listing passed explicitly. -/
def get_reciters (content : List ApiEdition) : List Reciter :=
  get_recitersAux 1 content

/-- Loop body of `get_surahs`: number the surahs from the given counter
and accumulate `aya_base` as the running sum of the preceding
`numberOfAyahs` values. -/
def get_surahsAux : Nat → Nat → List SurahRef → List Surah
  | _, _, [] => []
  | id, base, r :: rest =>
    { id := id, name := r.name, aya_base := base, n_aya := r.numberOfAyahs }
      :: get_surahsAux (id + 1) (base + r.numberOfAyahs) rest

/-- `get_surahs()` with the parsed meta listing passed explicitly. -/
def get_surahs (refs : List SurahRef) : List Surah :=
  get_surahsAux 1 0 refs

/-- Python `range(a, b)`: the integers `a, a+1, ..., b-1` (empty when
`b ≤ a`). -/
def pyRange (a b : Int) : List Int :=
  (List.range (b - a).toNat).map (fun (k : Nat) => a + (k : Int))

/-- The Bismillah phrase removed at line 126 of `fetch_audio.py`,
byte-identical to the literal in the source. -/
def bismillah : String :=
  "بِسۡمِ ٱللَّهِ ٱلرَّحۡمَـٰنِ ٱلرَّحِیمِ"

/-- The audio URL built by `get_recitations`:
the fixed CDN template parameterized by reciter code and global verse
index. -/
def audioLink (code : String) (aya : Int) : String :=
  "https://cdn.islamic.network/quran/audio/192/" ++ code ++ "/" ++ toString aya ++ ".mp3"

/-- Line 113 of the source evaluates `surah == 1` where `surah` is the
surah dictionary (re-bound at line 99), not the surah number.  In Python
a `dict` never equals an `int`, so this comparison is `False` for every
surah. -/
def pyEqSurahInt (_s : Surah) (_n : Int) : Bool :=
  false

/-- The fetch loop of `get_recitations` (lines 116-127): for the `i`-th
required verse index, build the audio link, fetch the verse text (a
failed fetch raises `FetchError` naming the index), strip the Bismillah
phrase when `i = 0` and removal is enabled, and append the trimmed text
with its link. -/
def fetchLoop (fetchAya : Int → Option String) (code : String)
    (remove_bismillah : Bool) : Nat → List Int → Except PyError (List Recitation)
  | _, [] => .ok []
  | i, aya :: rest =>
    let link := audioLink code aya
    match fetchAya aya with
    | none => .error (.fetchError ("Error in fetching text of aya number " ++ toString aya))
    | some t =>
      let t := if i == 0 && remove_bismillah then pyReplaceStr t bismillah else t
      match fetchLoop fetchAya code remove_bismillah (i + 1) rest with
      | .error e => .error e
      | .ok l => .ok ({ text := pyStripStr t, audio_link := link } :: l)

/-- `get_recitations(reciter_number, surah_number, start, end)` with the
remote data passed explicitly.  Mirrors the source line by line:
reciter lookup by `[...][0]` (an empty match raises `IndexError`), the
never-taken `if not reciter` fetch error, surah membership check, surah
lookup, the three range checks in source order, the global-index
computation, the `remove_bismillah` flag (with the source's
`not surah == 1` dictionary comparison), and the fetch loop. -/
def get_recitations (editions : List ApiEdition) (refs : List SurahRef)
    (fetchAya : Int → Option String) (reciter_number surah_number : Nat)
    (start endAya : Int) : Except PyError (List Recitation) :=
  let surahs := get_surahs refs
  match (((get_reciters editions).filter
      (fun r => r.id == reciter_number)).map (fun r => r.code)).head? with
  | none => .error .indexError
  | some reciter =>
    if reciter = "" then .error (.fetchError "Reciter id doesnt exist")
    else if surah_number ∉ surahs.map (fun s => s.id) then
      .error (.fetchError "Surah id doesnt exist")
    else
      match (surahs.filter (fun s => s.id == surah_number)).head? with
      | none => .error .indexError
      | some surah =>
        if endAya > (surah.n_aya : Int) then
          .error (.exceptionErr ("Surah " ++ surah.name ++ " only contain "
            ++ toString surah.n_aya ++ " ayat. Aya number " ++ toString endAya
            ++ " was required"))
        else if start < 1 then
          .error (.exceptionErr "start can't be less than one")
        else if endAya < start then
          .error (.exceptionErr "end can't be less than start")
        else
          let required_ayat := (pyRange start (endAya + 1)).map
            (fun n => n + (surah.aya_base : Int))
          let remove_bismillah := !(pyEqSurahInt surah 1) && (start == 1)
          fetchLoop fetchAya reciter remove_bismillah 0 required_ayat

/-- `os.path.join(a, b)` for the relative second components used here:
`b` is kept as-is after `a`, with a single separator inserted unless `a`
already ends with one (or is empty). -/
def pyOsPathJoin (a b : String) : String :=
  if a = "" then b
  else if a.endsWith "/" then a ++ b
  else a ++ "/" ++ b

/-- Download loop of `download_recitations` (lines 155-165): the `i`-th
link goes to `{destination}/recitation_{i}.mp3`; a failed download prints
a diagnostic and calls `exit()`, modelled as `none`. -/
def download_recitationsAux (downloadOk : String → Bool) (destination : String) :
    Nat → List String → Option (List String)
  | _, [] => some []
  | i, link :: rest =>
    let file_path := pyOsPathJoin destination ("recitation_" ++ toString i ++ ".mp3")
    if downloadOk link then
      match download_recitationsAux downloadOk destination (i + 1) rest with
      | none => none
      | some paths => some (file_path :: paths)
    else
      none

/-- `download_recitations(recitations, destination)` with download
outcomes passed explicitly.  Directory creation (lines 152-153) touches
no data the claims mention and is not modelled. -/
def download_recitations (downloadOk : String → Bool) (links : List String)
    (destination : String) : Option (List String) :=
  download_recitationsAux downloadOk destination 0 links

/-- One line of the caption file: `{start}:{end}:{text}` with the two
timestamps as exact rationals (the Python floats of the claims, `3.0`,
`4.5`, ..., are exactly representable). -/
structure CaptionLine where
  startSec : ℚ
  endSec : ℚ
  text : String
deriving DecidableEq, Repr

/-- Caption loop of `generate_ayat_caption_file` (lines 213-217): running
cumulative duration; line `i` spans from the sum of the first `i`
durations to that sum plus `durations[i]`.  The two lists have equal
length whenever the loop runs (the guard raised otherwise), so lockstep
recursion is faithful. -/
def captionLinesAux : ℚ → List String → List ℚ → List CaptionLine
  | _, _, [] => []
  | _, [], _ :: _ => []
  | cum, t :: ts, d :: ds =>
    { startSec := cum, endSec := cum + d, text := t } :: captionLinesAux (cum + d) ts ds

/-- `generate_ayat_caption_file(ayat_texts, ayat_durations, destination)`.
`fs` is the previous contents of the destination file (`none` when it
does not exist).  Returns the raised error (if any) together with the
resulting contents of the destination: the size check happens before
`open(destination, "w")`, so on mismatch the file is untouched; otherwise
the file is opened with mode `"w"` (truncating) and the caption lines are
written. -/
def generate_ayat_caption_file (ayat_texts : List String) (ayat_durations : List ℚ)
    (fs : Option (List CaptionLine)) : Option PyError × Option (List CaptionLine) :=
  if ¬(ayat_durations.length = ayat_texts.length) then
    (some (.exceptionErr "Both ayat texts and durations arrays should be of the same size"), fs)
  else
    (none, some (captionLinesAux 0 ayat_texts ayat_durations))

/-! ### Demonstration data used by the concrete witnesses -/

/-- A one-reciter edition catalog. -/
def demoEditions : List ApiEdition := [⟨"ar", "R", "rc"⟩]

/-- A two-surah meta listing with the verse counts of the first two
surahs. -/
def demoRefs : List SurahRef := [⟨"S1", 7⟩, ⟨"S2", 286⟩]

/-- A verse-text lookup that always succeeds with a fixed text. -/
def demoFetch : Int → Option String := fun _ => some "x"

/-- A verse-text lookup that returns the Bismillah phrase (with the
trailing newline shown in the source's own docstring example) for global
verse index 1, the first verse of surah 1. -/
def demoFetchBismillah : Int → Option String :=
  fun a => if a = 1 then some (bismillah ++ "\n") else some "x"

/-! ### Helper lemmas -/

/-- `get_surahsAux` preserves the length of the listing. -/
lemma get_surahsAux_length (refs : List SurahRef) :
    ∀ id base, (get_surahsAux id base refs).length = refs.length := by
  induction refs with
  | nil => intro id base; rfl
  | cons r rest ih => intro id base; simp [get_surahsAux, ih]

/-- Element `i` of `get_surahsAux id base refs`: its id is `id + i`, its
`aya_base` is `base` plus the verse counts of the preceding references. -/
lemma get_surahsAux_elem (refs : List SurahRef) :
    ∀ (id base i : Nat), i < refs.length →
      (get_surahsAux id base refs).get? i
        = some { id := id + i,
                 name := refs.getD i ⟨"", 0⟩ |>.name,
                 aya_base := base + (((refs.take i).map SurahRef.numberOfAyahs).sum),
                 n_aya := refs.getD i ⟨"", 0⟩ |>.numberOfAyahs } := by
  induction refs with
  | nil => intro _ _ i hi; simp at hi
  | cons r rest ih =>
    intro id base i hi
    cases i with
    | zero => simp [get_surahsAux]
    | succ i =>
      have hi' : i < rest.length := by simpa using hi
      simp only [get_surahsAux, List.get?, List.getD, List.take, List.map_cons,
        List.sum_cons]
      rw [ih (id + 1) (base + r.numberOfAyahs) i hi']
      congr 1
      simp [Surah.mk.injEq]
      omega

/-- Taking one more element appends the element at position `i` (stated
with `getD` to avoid dependent indexing). -/
lemma take_succ_getD {α : Type} (d : α) (l : List α) :
    ∀ i, i < l.length → l.take (i + 1) = l.take i ++ [l.getD i d] := by
  induction l with
  | nil => intro i hi; simp at hi
  | cons a l ih =>
    intro i hi
    cases i with
    | zero => simp
    | succ i =>
      have hi' : i < l.length := by simpa using hi
      simp [ih i hi']

/-- Every element of `get_surahs refs` is the record at some position
`i`, with id `1 + i` and `aya_base` the sum of the preceding counts. -/
lemma get_surahs_mem_char (refs : List SurahRef) :
    ∀ u ∈ get_surahs refs, ∃ i, i < refs.length ∧
      u = { id := 1 + i,
            name := (refs.getD i ⟨"", 0⟩).name,
            aya_base := ((refs.take i).map SurahRef.numberOfAyahs).sum,
            n_aya := (refs.getD i ⟨"", 0⟩).numberOfAyahs } := by
  intro u hu
  obtain ⟨⟨i, hlt⟩, rfl⟩ := List.mem_iff_get.1 hu
  have hi : i < refs.length := by
    have := get_surahsAux_length refs 1 0
    simpa [get_surahs, this] using hlt
  refine ⟨i, hi, ?_⟩
  have h1 : (get_surahs refs).get? i = some ((get_surahs refs).get ⟨i, hlt⟩) :=
    List.get?_eq_get hlt
  have h2 : (get_surahs refs).get? i
      = some { id := 1 + i,
               name := (refs.getD i ⟨"", 0⟩).name,
               aya_base := ((refs.take i).map SurahRef.numberOfAyahs).sum,
               n_aya := (refs.getD i ⟨"", 0⟩).numberOfAyahs } := by
    have := get_surahsAux_elem refs 1 0 i hi
    simpa [get_surahs] using this
  rw [h1] at h2
  simpa using h2

/-- C7.  For the surah list built by `get_surahs`, the surah with id 1
has `aya_base = 0`, and whenever surah `t` has id one more than surah
`s`, `t.aya_base = s.aya_base + s.n_aya`: `aya_base` is the running sum
of the preceding verse counts in ascending surah-id order. -/
theorem spec_C7 (refs : List SurahRef) :
    (∀ s ∈ get_surahs refs, s.id = 1 → s.aya_base = 0) ∧
    (∀ s ∈ get_surahs refs, ∀ t ∈ get_surahs refs,
      t.id = s.id + 1 → t.aya_base = s.aya_base + s.n_aya) := by
  constructor
  · intro s hs hid
    obtain ⟨i, hi, rfl⟩ := get_surahs_mem_char refs s hs
    simp only at hid ⊢
    have : i = 0 := by omega
    subst this
    simp
  · intro s hs t ht hid
    obtain ⟨i, hi, rfl⟩ := get_surahs_mem_char refs s hs
    obtain ⟨j, hj, rfl⟩ := get_surahs_mem_char refs t ht
    simp only at hid ⊢
    have : j = i + 1 := by omega
    subst this
    rw [take_succ_getD ⟨"", 0⟩ refs i hi]
    simp

/-- Witness for C7 on a concrete two-surah listing: surah 2 sits at
`aya_base = 7 = 0 + 7`. -/
theorem spec_C7_witness :
    (Surah.mk 1 "S1" 0 7) ∈ get_surahs demoRefs ∧
    (Surah.mk 2 "S2" 7 286) ∈ get_surahs demoRefs ∧
    (Surah.mk 2 "S2" 7 286).aya_base
      = (Surah.mk 1 "S1" 0 7).aya_base + (Surah.mk 1 "S1" 0 7).n_aya :=
  ⟨by decide, by decide,
    (spec_C7 demoRefs).2 (Surah.mk 1 "S1" 0 7) (by decide)
      (Surah.mk 2 "S2" 7 286) (by decide) (by decide)⟩

/-- Each of the `countOccAux` occurrences found by the left-to-right
scan removes exactly `p.length` characters from the text. -/
lemma pyReplaceAux_length (p : List Char) (hp : p ≠ []) :
    ∀ fuel s, s.length ≤ fuel →
      (pyReplaceAux p fuel s).length + p.length * countOccAux p fuel s = s.length := by
  intro fuel
  induction fuel with
  | zero =>
    intro s hs
    have : s = [] := List.length_eq_zero.1 (Nat.le_zero.1 hs)
    subst this
    simp [pyReplaceAux, countOccAux]
  | succ fuel ih =>
    intro s hs
    cases s with
    | nil => simp [pyReplaceAux, countOccAux]
    | cons c s =>
      by_cases hpre : p.isPrefixOf (c :: s)
      · have hple : p.length ≤ (c :: s).length :=
          (List.isPrefixOf_iff_prefix.1 hpre).length_le
        have hplen : 1 ≤ p.length := by
          cases p with
          | nil => exact absurd rfl hp
          | cons q qs => simp
        have hdrop : ((c :: s).drop p.length).length = (c :: s).length - p.length := by
          simp
        have hfuel : ((c :: s).drop p.length).length ≤ fuel := by
          rw [hdrop]
          simp only [List.length_cons] at hs ⊢
          omega
        have := ih ((c :: s).drop p.length) hfuel
        simp only [pyReplaceAux, countOccAux, if_pos hpre]
        rw [hdrop] at this
        simp only [List.length_cons] at hs this hple ⊢
        rw [Nat.mul_add]
        omega
      · have hfuel : s.length ≤ fuel := by
          simp only [List.length_cons] at hs
          omega
        have := ih s hfuel
        simp only [pyReplaceAux, countOccAux, if_neg hpre, List.length_cons]
        omega

/-- C9.  When Bismillah removal runs, the `text.replace(phrase, "")` at
line 126 is an unanchored replace-all: the output length drops by the
phrase length once for every (non-overlapping, left-to-right) occurrence
counted anywhere in the text — not just a leading one — and a text with
the phrase embedded twice mid-string loses both copies. -/
theorem spec_C9 :
    (∀ s : List Char,
      (pyReplaceL bismillah.data s).length
        + bismillah.data.length * countOccL bismillah.data s = s.length) ∧
    pyReplaceStr ("x" ++ bismillah ++ "y" ++ bismillah ++ "z") bismillah = "xyz" := by
  constructor
  · intro s
    have hp : bismillah.data ≠ [] := by decide
    rw [pyReplaceL, countOccL, if_neg hp, if_neg hp]
    exact pyReplaceAux_length bismillah.data hp s.length s le_rfl
  · decide

/-- Element `i` of the caption loop started at cumulative value `cum`:
it spans from `cum` plus the first `i` durations to `cum` plus the first
`i + 1` durations, and carries the `i`-th text. -/
lemma captionLinesAux_elem :
    ∀ (ds : List ℚ) (ts : List String) (cum : ℚ) (i : Nat),
      ts.length = ds.length → i < ds.length →
      (captionLinesAux cum ts ds).get? i
        = some { startSec := cum + (ds.take i).sum,
                 endSec := cum + (ds.take (i + 1)).sum,
                 text := ts.getD i "" } := by
  intro ds
  induction ds with
  | nil => intro ts cum i _ hi; simp at hi
  | cons d ds ih =>
    intro ts cum i hlen hi
    cases ts with
    | nil => simp at hlen
    | cons t ts =>
      cases i with
      | zero => simp [captionLinesAux]
      | succ i =>
        have hlen' : ts.length = ds.length := by simpa using hlen
        have hi' : i < ds.length := by simpa using hi
        simp only [captionLinesAux, List.get?]
        rw [ih ts (cum + d) i hlen' hi']
        simp [add_assoc]

/-- The caption loop emits one line per duration when the lists have
equal length. -/
lemma captionLinesAux_length :
    ∀ (ds : List ℚ) (ts : List String) (cum : ℚ), ts.length = ds.length →
      (captionLinesAux cum ts ds).length = ds.length := by
  intro ds
  induction ds with
  | nil => intro ts cum _; cases ts <;> simp [captionLinesAux]
  | cons d ds ih =>
    intro ts cum hlen
    cases ts with
    | nil => simp at hlen
    | cons t ts =>
      have hlen' : ts.length = ds.length := by simpa using hlen
      simp [captionLinesAux, ih ts (cum + d) hlen']

/-- C5.  For equal-length texts and durations, the caption writer
succeeds and writes one line per entry, in input order: line `i` starts
at the sum of the first `i` durations and ends at that start plus
`durations[i]`, carrying `texts[i]`. -/
theorem spec_C5 (ts : List String) (ds : List ℚ) (fs : Option (List CaptionLine))
    (i : Nat) (hlen : ts.length = ds.length) (hi : i < ds.length) :
    ∃ lines, generate_ayat_caption_file ts ds fs = (none, some lines) ∧
      lines.length = ds.length ∧
      lines.get? i = some { startSec := (ds.take i).sum,
                            endSec := (ds.take i).sum + ds.getD i 0,
                            text := ts.getD i "" } := by
  refine ⟨captionLinesAux 0 ts ds, ?_, ?_, ?_⟩
  · rw [generate_ayat_caption_file, if_neg (not_not_intro hlen.symm)]
  · exact captionLinesAux_length ds ts 0 hlen
  · rw [captionLinesAux_elem ds ts 0 i hlen hi]
    rw [take_succ_getD 0 ds i hi]
    simp

/-- Witness for C5 with the durations of the claim: the second line of
captions for durations `[3, 4.5, 2]` starts at `3` and ends at `7.5`. -/
theorem spec_C5_witness :
    ∃ lines, generate_ayat_caption_file ["a", "b", "c"] [3, 4.5, 2] none
        = (none, some lines) ∧
      lines.length = 3 ∧
      lines.get? 1 = some { startSec := 3, endSec := 7.5, text := "b" } := by
  have h := spec_C5 ["a", "b", "c"] [3, 4.5, 2] none 1 (by decide) (by decide)
  obtain ⟨lines, h1, h2, h3⟩ := h
  refine ⟨lines, h1, h2, ?_⟩
  rw [h3]
  norm_num

/-- C6.  On a size mismatch the caption writer raises the size-mismatch
error and the destination file keeps its previous contents: the check
runs before the file is opened. -/
theorem spec_C6 (ts : List String) (ds : List ℚ) (fs : Option (List CaptionLine))
    (hlen : ts.length ≠ ds.length) :
    generate_ayat_caption_file ts ds fs
      = (some (.exceptionErr "Both ayat texts and durations arrays should be of the same size"),
         fs) := by
  rw [generate_ayat_caption_file, if_pos (fun e => hlen e.symm)]

/-- Witness for C6: three texts against two durations raise the
size-mismatch error and leave the existing destination contents in
place. -/
theorem spec_C6_witness :
    generate_ayat_caption_file ["a", "b", "c"] [3, 4.5]
        (some [{ startSec := 0, endSec := 1, text := "old" }])
      = (some (.exceptionErr "Both ayat texts and durations arrays should be of the same size"),
         some [{ startSec := 0, endSec := 1, text := "old" }]) :=
  spec_C6 ["a", "b", "c"] [3, 4.5]
    (some [{ startSec := 0, endSec := 1, text := "old" }]) (by decide)

/-- C10.  Calling the caption writer with both lists empty succeeds (the
size check passes) and still opens the destination with mode `"w"`,
leaving it an empty file whatever it held before. -/
theorem spec_C10 :
    ∀ fs : Option (List CaptionLine),
      generate_ayat_caption_file [] [] fs = (none, some []) :=
  fun _ => rfl

/-- When every download succeeds, the download loop started at counter
`i` returns one path per link, the `k`-th being
`{destination}/recitation_{i+k}.mp3`. -/
lemma download_recitationsAux_ok (downloadOk : String → Bool) (destination : String) :
    ∀ (links : List String) (i : Nat), (∀ l ∈ links, downloadOk l = true) →
      ∃ paths, download_recitationsAux downloadOk destination i links = some paths ∧
        paths.length = links.length ∧
        ∀ k, k < links.length →
          paths.get? k
            = some (pyOsPathJoin destination ("recitation_" ++ toString (i + k) ++ ".mp3")) := by
  intro links
  induction links with
  | nil =>
    intro i _
    exact ⟨[], rfl, rfl, fun k hk => by simp at hk⟩
  | cons l rest ih =>
    intro i h
    obtain ⟨paths, hp, hlen, hget⟩ := ih (i + 1) (fun x hx => h x (List.mem_cons_of_mem l hx))
    refine ⟨pyOsPathJoin destination ("recitation_" ++ toString i ++ ".mp3") :: paths, ?_, ?_, ?_⟩
    · rw [download_recitationsAux, h l (List.mem_cons_self l rest), if_pos rfl, hp]
    · simp [hlen]
    · intro k hk
      cases k with
      | zero => simp
      | succ k =>
        have hk' : k < rest.length := by simpa using hk
        have := hget k hk'
        have harg : i + 1 + k = i + (k + 1) := by omega
        rw [harg] at this
        simpa using this

/-- C8.  When every individual download succeeds, `download_recitations`
returns as many local paths as links, in input order, the `k`-th path
being `{destination}/recitation_{k}.mp3` with `k` the 0-based position
of the link. -/
theorem spec_C8 (downloadOk : String → Bool) (links : List String) (destination : String)
    (h : ∀ l ∈ links, downloadOk l = true) :
    ∃ paths, download_recitations downloadOk links destination = some paths ∧
      paths.length = links.length ∧
      ∀ k, k < links.length →
        paths.get? k
          = some (pyOsPathJoin destination ("recitation_" ++ toString k ++ ".mp3")) := by
  obtain ⟨paths, hp, hlen, hget⟩ := download_recitationsAux_ok downloadOk destination links 0 h
  refine ⟨paths, hp, hlen, fun k hk => ?_⟩
  have := hget k hk
  rwa [Nat.zero_add] at this

/-- Witness for C8: two always-successful links land at
`./d/recitation_0.mp3` and `./d/recitation_1.mp3`. -/
theorem spec_C8_witness :
    ∃ paths, download_recitations (fun _ => true) ["l1", "l2"] "./d" = some paths ∧
      paths.length = 2 ∧
      ∀ k, k < 2 →
        paths.get? k = some (pyOsPathJoin "./d" ("recitation_" ++ toString k ++ ".mp3")) :=
  spec_C8 (fun _ => true) ["l1", "l2"] "./d" (fun _ _ => rfl)

/-- With the reciter and surah lookups resolved, `get_recitations`
reduces to the three range checks (in source order) followed by the
fetch loop. -/
lemma get_recitations_reduce (editions : List ApiEdition) (refs : List SurahRef)
    (fetchAya : Int → Option String) (reciter_number surah_number : Nat)
    (start endAya : Int) (rcode : String) (surah : Surah)
    (hrec : (((get_reciters editions).filter
        (fun r => r.id == reciter_number)).map (fun r => r.code)).head? = some rcode)
    (hne : rcode ≠ "")
    (hmem : surah_number ∈ (get_surahs refs).map (fun s => s.id))
    (hsur : ((get_surahs refs).filter (fun s => s.id == surah_number)).head? = some surah) :
    get_recitations editions refs fetchAya reciter_number surah_number start endAya
      = if endAya > (surah.n_aya : Int) then
          .error (.exceptionErr ("Surah " ++ surah.name ++ " only contain "
            ++ toString surah.n_aya ++ " ayat. Aya number " ++ toString endAya
            ++ " was required"))
        else if start < 1 then
          .error (.exceptionErr "start can't be less than one")
        else if endAya < start then
          .error (.exceptionErr "end can't be less than start")
        else
          fetchLoop fetchAya rcode (!(pyEqSurahInt surah 1) && (start == 1)) 0
            ((pyRange start (endAya + 1)).map (fun n => n + (surah.aya_base : Int))) := by
  simp only [get_recitations, hrec, if_neg hne, if_neg (not_not_intro hmem), hsur]

/-- C3.  With the reciter and surah known, the range checks run in the
fixed order `end ≤ n_aya`, then `start ≥ 1`, then `start ≤ end`, and the
error raised is exactly that of the first failing check. -/
theorem spec_C3 (editions : List ApiEdition) (refs : List SurahRef)
    (fetchAya : Int → Option String) (reciter_number surah_number : Nat)
    (start endAya : Int) (rcode : String) (surah : Surah)
    (hrec : (((get_reciters editions).filter
        (fun r => r.id == reciter_number)).map (fun r => r.code)).head? = some rcode)
    (hne : rcode ≠ "")
    (hmem : surah_number ∈ (get_surahs refs).map (fun s => s.id))
    (hsur : ((get_surahs refs).filter (fun s => s.id == surah_number)).head? = some surah) :
    (endAya > (surah.n_aya : Int) →
      get_recitations editions refs fetchAya reciter_number surah_number start endAya
        = .error (.exceptionErr ("Surah " ++ surah.name ++ " only contain "
            ++ toString surah.n_aya ++ " ayat. Aya number " ++ toString endAya
            ++ " was required"))) ∧
    (endAya ≤ (surah.n_aya : Int) → start < 1 →
      get_recitations editions refs fetchAya reciter_number surah_number start endAya
        = .error (.exceptionErr "start can't be less than one")) ∧
    (endAya ≤ (surah.n_aya : Int) → 1 ≤ start → endAya < start →
      get_recitations editions refs fetchAya reciter_number surah_number start endAya
        = .error (.exceptionErr "end can't be less than start")) := by
  rw [get_recitations_reduce editions refs fetchAya reciter_number surah_number
    start endAya rcode surah hrec hne hmem hsur]
  refine ⟨fun h => ?_, fun h1 h2 => ?_, fun h1 h2 h3 => ?_⟩
  · rw [if_pos h]
  · rw [if_neg (by omega), if_pos h2]
  · rw [if_neg (by omega), if_neg (by omega), if_pos h3]

/-- Witness for C3, the spec's own example: surah 1 has 7 verses and
`end = 8` fails the first check with the error naming the surah and its
limit. -/
theorem spec_C3_witness :
    get_recitations demoEditions demoRefs demoFetch 1 1 1 8
      = .error (.exceptionErr "Surah S1 only contain 7 ayat. Aya number 8 was required") :=
  (spec_C3 demoEditions demoRefs demoFetch 1 1 1 8 "rc" ⟨1, "S1", 0, 7⟩
    rfl (by decide) (by decide) rfl).1 (by decide)

/-- When every fetch in the list succeeds, the fetch loop succeeds and
produces one recitation per index, whose audio link is the CDN template
at that index. -/
lemma fetchLoop_ok (fetchAya : Int → Option String) (code : String) (rb : Bool) :
    ∀ (ayat : List Int) (i : Nat), (∀ a ∈ ayat, (fetchAya a).isSome = true) →
      ∃ l, fetchLoop fetchAya code rb i ayat = .ok l ∧
        l.map (fun r => r.audio_link) = ayat.map (audioLink code) := by
  intro ayat
  induction ayat with
  | nil => exact fun i _ => ⟨[], rfl, rfl⟩
  | cons a rest ih =>
    intro i h
    obtain ⟨t, ht⟩ := Option.isSome_iff_exists.1 (h a (List.mem_cons_self a rest))
    obtain ⟨l, hl, hmap⟩ := ih (i + 1) (fun x hx => h x (List.mem_cons_of_mem a hx))
    refine ⟨{ text := pyStripStr (if i == 0 && rb then pyReplaceStr t bismillah else t),
              audio_link := audioLink code a } :: l, ?_, ?_⟩
    · simp only [fetchLoop, ht, hl]
    · simp [hmap]

/-- C4.  For a valid request (known reciter and surah,
`1 ≤ start ≤ end ≤ n_aya`) with every verse-text fetch succeeding,
`get_recitations` returns exactly `end - start + 1` recitations whose
audio links are the CDN template at the ascending global indices
`start + aya_base, start + 1 + aya_base, ..., end + aya_base`. -/
theorem spec_C4 (editions : List ApiEdition) (refs : List SurahRef)
    (fetchAya : Int → Option String) (reciter_number surah_number : Nat)
    (start endAya : Int) (rcode : String) (surah : Surah)
    (hrec : (((get_reciters editions).filter
        (fun r => r.id == reciter_number)).map (fun r => r.code)).head? = some rcode)
    (hne : rcode ≠ "")
    (hmem : surah_number ∈ (get_surahs refs).map (fun s => s.id))
    (hsur : ((get_surahs refs).filter (fun s => s.id == surah_number)).head? = some surah)
    (hstart : 1 ≤ start) (hse : start ≤ endAya) (hend : endAya ≤ (surah.n_aya : Int))
    (hf : ∀ n, start ≤ n → n ≤ endAya →
      (fetchAya (n + (surah.aya_base : Int))).isSome = true) :
    ∃ l, get_recitations editions refs fetchAya reciter_number surah_number start endAya
        = .ok l ∧
      l.length = (endAya - start + 1).toNat ∧
      l.map (fun r => r.audio_link)
        = (List.range (endAya - start + 1).toNat).map
            (fun (k : Nat) => audioLink rcode (start + (k : Int) + (surah.aya_base : Int))) := by
  rw [get_recitations_reduce editions refs fetchAya reciter_number surah_number
    start endAya rcode surah hrec hne hmem hsur]
  rw [if_neg (by omega), if_neg (by omega), if_neg (by omega)]
  obtain ⟨l, hl, hmap⟩ := fetchLoop_ok fetchAya rcode (!(pyEqSurahInt surah 1) && (start == 1))
    ((pyRange start (endAya + 1)).map (fun n => n + (surah.aya_base : Int))) 0 (by
      intro a ha
      simp only [pyRange, List.map_map, List.mem_map, List.mem_range, Function.comp] at ha
      obtain ⟨k, hk, rfl⟩ := ha
      exact hf (start + k) (by omega) (by omega))
  have hcount : (endAya + 1 - start).toNat = (endAya - start + 1).toNat := by omega
  refine ⟨l, hl, ?_, ?_⟩
  · have h4 := congrArg List.length hmap
    simp only [List.length_map, pyRange, List.length_range] at h4
    rw [h4, hcount]
  · rw [hmap]
    simp only [pyRange, hcount, List.map_map]
    exact List.map_congr_left (fun k _ => by simp [Function.comp, add_assoc])

/-- Witness for C4: surah 2 of the demo listing (`aya_base = 7`),
verses 1 to 2, yield two recitations with global indices 8 and 9 in the
audio links. -/
theorem spec_C4_witness :
    ∃ l, get_recitations demoEditions demoRefs demoFetch 1 2 1 2 = .ok l ∧
      l.length = 2 ∧
      l.map (fun r => r.audio_link) = [audioLink "rc" 8, audioLink "rc" 9] := by
  obtain ⟨l, h1, h2, h3⟩ := spec_C4 demoEditions demoRefs demoFetch 1 2 1 2
    "rc" ⟨2, "S2", 7, 286⟩ rfl (by decide) (by decide) rfl
    (by decide) (by decide) (by decide) (fun n _ _ => rfl)
  refine ⟨l, h1, by simpa using h2, ?_⟩
  rw [h3]
  rfl

/-- C2 (code evaluation).  A reciter id matching no reciter makes the
lookup `[... for ...][0]` at line 92 raise `IndexError`: the
`FetchError("Reciter id doesnt exist")` at line 94 is never reached for
a missing id. -/
theorem spec_C2_code_eval :
    get_recitations demoEditions demoRefs demoFetch 2 1 1 1 = .error .indexError := by
  rfl

/-- C1 (code evaluation).  Line 113 computes `remove_bismillah` from
`not surah == 1` where `surah` is the surah dictionary, so the flag is
true for surah 1 as well: resolving surah 1, verse 1, whose fetched text
is the Bismillah phrase itself (as in the function's own docstring
example), returns an empty text — the phrase is stripped although
`surah_id == 1`. -/
theorem spec_C1_code_eval :
    get_recitations demoEditions demoRefs demoFetchBismillah 1 1 1 1
      = .ok [{ text := "",
               audio_link := "https://cdn.islamic.network/quran/audio/192/rc/1.mp3" }] := by
  rfl

end FetchAudio
